import Mathlib

/-!
Shallow embedding of the agent-orchestration control loop of the NVIDIA
multi-agent research assistant: src/agents/controller.py,
src/agents/langgraph_controller.py, src/agents/rag_agent/rag_tool.py,
src/agents/rag_agent/pinecone_utils.py, src/agents/snowflake_agent/snowflake_tool.py
and src/backend/main.py.  Python text is modelled as a list of unicode
code points (`PStr`); Python exceptions as `Except PyErr`; the external
collaborators (language model, pinecone, snowflake, tavily) as explicit
function parameters.
-/

/-- Python strings, modelled as lists of unicode code points. -/
abbrev PStr := List Nat

/-- Code-point list of a Lean string literal: used to transcribe the Python
string literals of the source. -/
def pstr (s : String) : PStr := s.data.map (fun c => c.toNat)

/-- A Python value appearing in a tool argument bundle or a report field:
`None`, a string, or a list of strings. -/
inductive PAtom where
  | vnone : PAtom
  | vstr : PStr → PAtom
  | vlist : List PStr → PAtom
  deriving DecidableEq

/-- A Python dict with string keys, modelled as an insertion-ordered
association list (CPython dicts preserve insertion order). -/
abbrev PDict := List (PStr × PAtom)

/-- Python `sep.join(items)`. -/
def joinSep (sep : PStr) : List PStr → PStr
  | [] => []
  | [x] => x
  | x :: y :: xs => x ++ sep ++ joinSep sep (y :: xs)

/-- Lowercase hex digit, as produced by CPython string escapes. -/
def hexDig (d : Nat) : Nat := if d < 10 then 48 + d else 87 + d

/-- One code point of CPython `repr` of a string quoted with `quote`:
backslash, the quote, newline, carriage return and tab are escaped, other
control characters become hex escapes, everything else is kept literally. -/
def pyReprEscChar (quote : Nat) (c : Nat) : PStr :=
  if c = 92 then [92, 92]
  else if c = quote then [92, quote]
  else if c = 10 then [92, 110]
  else if c = 13 then [92, 114]
  else if c = 9 then [92, 116]
  else if c < 32 ∨ c = 127 then [92, 120, hexDig (c / 16), hexDig (c % 16)]
  else [c]

/-- CPython `repr`/`str` of a string value as it appears inside a formatted
dict: single-quoted, double-quoted when the text holds a single quote but no
double quote. -/
def pyReprStr (s : PStr) : PStr :=
  let quote : Nat := if 39 ∈ s ∧ ¬ 34 ∈ s then 34 else 39
  quote :: s.flatMap (pyReprEscChar quote) ++ [quote]

/-- CPython `repr` of an argument-bundle value. -/
def pyReprAtom : PAtom → PStr
  | .vnone => pstr "None"
  | .vstr s => pyReprStr s
  | .vlist l => 91 :: joinSep (pstr ", ") (l.map pyReprStr) ++ [93]

/-- CPython `str`/`repr` of a dict, as interpolated by the f-strings of
controller.py. -/
def pyReprDict (d : PDict) : PStr :=
  123 :: joinSep (pstr ", ") (d.map (fun e => pyReprStr e.1 ++ pstr ": " ++ pyReprAtom e.2)) ++ [125]

/-- Python `str` of an argument value (`str` on a string is the identity). -/
def strOfAtom : PAtom → PStr
  | .vnone => pstr "None"
  | .vstr s => s
  | .vlist l => pyReprAtom (.vlist l)

/-- CPython `json.dumps` escaping of one code point (`ensure_ascii=True`):
quote, backslash and the short control escapes, `\uXXXX` for the remaining
control and all non-ASCII code points, a surrogate pair above `0xFFFF`. -/
def escChar (c : Nat) : PStr :=
  if c = 34 then [92, 34]
  else if c = 92 then [92, 92]
  else if c = 8 then [92, 98]
  else if c = 12 then [92, 102]
  else if c = 10 then [92, 110]
  else if c = 13 then [92, 114]
  else if c = 9 then [92, 116]
  else if 32 ≤ c ∧ c ≤ 126 then [c]
  else if c < 65536 then
    [92, 117, hexDig (c / 4096 % 16), hexDig (c / 256 % 16), hexDig (c / 16 % 16), hexDig (c % 16)]
  else
    [92, 117, hexDig ((55296 + (c - 65536) / 1024) / 4096 % 16),
     hexDig ((55296 + (c - 65536) / 1024) / 256 % 16),
     hexDig ((55296 + (c - 65536) / 1024) / 16 % 16),
     hexDig ((55296 + (c - 65536) / 1024) % 16),
     92, 117, hexDig ((56320 + (c - 65536) % 1024) / 4096 % 16),
     hexDig ((56320 + (c - 65536) % 1024) / 256 % 16),
     hexDig ((56320 + (c - 65536) % 1024) / 16 % 16),
     hexDig ((56320 + (c - 65536) % 1024) % 16)]

/-- `json.dumps` of a string. -/
def dumpStr (s : PStr) : PStr := 34 :: s.flatMap escChar ++ [34]

/-- `json.dumps` of an argument/report value. -/
def dumpAtom : PAtom → PStr
  | .vnone => pstr "null"
  | .vstr s => dumpStr s
  | .vlist l => 91 :: joinSep (pstr ", ") (l.map dumpStr) ++ [93]

/-- `json.dumps` of a string-keyed dict with the default separators
`", "` and `": "`, preserving insertion order. -/
def jsonDumps (d : PDict) : PStr :=
  123 :: joinSep (pstr ", ") (d.map (fun e => dumpStr e.1 ++ pstr ": " ++ dumpAtom e.2)) ++ [125]

/-! ### Data model of controller.py -/

def ragName : PStr := pstr "rag_retrieve_chunks"
def snowName : PStr := pstr "snowflake_query"
def webName : PStr := pstr "web_search"
def finalName : PStr := pstr "final_answer"

/-- The keys of the tool registry `tool_map` (controller.py lines 64-70). -/
def registryNames : List PStr := [ragName, snowName, webName, finalName]

/-- One scratchpad entry (a langchain `AgentAction`): tool identifier,
argument bundle and result payload (`log`). -/
structure AgentAction where
  tool : PStr
  tool_input : PDict
  log : PStr
  deriving DecidableEq

/-- One tool call of the model response (`output.tool_calls[i]`). -/
structure ToolCall where
  name : PStr
  args : PDict
  deriving DecidableEq

/-- The `AgentState` TypedDict of controller.py (lines 17-23). -/
structure AgentState where
  input : PStr
  chat_history : List PStr
  intermediate_steps : List AgentAction
  year : PAtom
  quarter : PAtom
  deriving DecidableEq

/-- The Python exceptions that the embedded code can raise. -/
inductive PyErr where
  | indexError
  | keyError (k : PStr)
  | valueError (msg : PStr)
  | toolError (msg : PStr)
  deriving DecidableEq

/-- A tool adapter result: a string or a dict (`final_answer` returns a dict). -/
inductive PResult where
  | rstr (s : PStr)
  | rdict (d : PDict)
  deriving DecidableEq

/-- `result if isinstance(result, str) else json.dumps(result)`
(controller.py line 193). -/
def logStrOf : PResult → PStr
  | .rstr s => s
  | .rdict d => jsonDumps d

/-! ### Scratchpad, loop guard and decision step -/

/-- One formatted scratchpad entry of `build_scratchpad`. -/
def fmtScratchStep (s : AgentAction) : PStr :=
  pstr "Tool: " ++ s.tool ++ pstr "\nInput: " ++ pyReprDict s.tool_input ++ pstr "\nOutput: " ++ s.log

/-- controller.build_scratchpad (lines 73-79): format every step, join with
a separator line, slice to the first 12000 characters. -/
def build_scratchpad (steps : List AgentAction) : PStr :=
  (joinSep (pstr "\n---\n") (steps.map fmtScratchStep)).take 12000

/-- The duplicate scan of run_oracle (lines 130-131): is some recorded step
an exact (tool identifier, argument bundle) match of the proposal? -/
def loopGuard (steps : List AgentAction) (name : PStr) (args : PDict) : Bool :=
  steps.any (fun step => step.tool == name && step.tool_input == args)

/-- Value of `{s.tool: s.log for s in steps}.get(t)`: comprehension entries
written later overwrite earlier ones, so this is the log of the last step
with tool `t`. -/
def lastLog (steps : List AgentAction) (t : PStr) : Option PStr :=
  (steps.reverse.find? (fun s => s.tool == t)).map (fun s => s.log)

/-- One line of the forced report's `research_steps` narrative (line 134). -/
def fmtStepLine (s : AgentAction) : PStr :=
  pstr "Tool: " ++ s.tool ++ pstr ", input: " ++ pyReprDict s.tool_input

/-- The `final_output` dict synthesized by the loop guard (lines 138-146). -/
def finalOutput (steps : List AgentAction) : PDict :=
  [(pstr "research_steps", .vlist (steps.map fmtStepLine)),
   (pstr "historical_performance", .vstr ((lastLog steps ragName).getD (pstr "N/A"))),
   (pstr "financial_analysis", .vstr ((lastLog steps snowName).getD (pstr "N/A"))),
   (pstr "industry_insights", .vstr ((lastLog steps webName).getD (pstr "N/A"))),
   (pstr "summary", .vstr (pstr "Here is a summary based on the tools used so far.")),
   (pstr "sources", .vlist [pstr "Pinecone", pstr "Snowflake", pstr "Web Search"]),
   (pstr "analysis_type", .vstr ((lastLog steps (pstr "analysis_type")).getD (pstr "financial_summary")))]

/-- controller.run_oracle (lines 123-164).  The external model inference
`oracle.invoke(state)` is passed in as its outcome `resp`: an exception
(timeout, malformed response) or the returned list of tool calls.  The code
takes `output.tool_calls[0]` with no guard, so an empty list raises
IndexError; a duplicate proposal is overridden by a forced `final_answer`
record; otherwise the proposal is appended pending with log `"TBD"`. -/
def run_oracle (state : AgentState) (resp : Except PyErr (List ToolCall)) :
    Except PyErr AgentState :=
  match resp with
  | .error e => .error e
  | .ok [] => .error .indexError
  | .ok (tc :: _) =>
    if loopGuard state.intermediate_steps tc.name tc.args then
      .ok { state with intermediate_steps := state.intermediate_steps ++
        [{ tool := finalName, tool_input := finalOutput state.intermediate_steps,
           log := jsonDumps (finalOutput state.intermediate_steps) }] }
    else
      .ok { state with intermediate_steps := state.intermediate_steps ++
        [{ tool := tc.name, tool_input := tc.args, log := pstr "TBD" }] }

/-! ### Dispatcher -/

/-- Python `d[k] = v` on an insertion-ordered dict: overwrite in place when
the key exists, append otherwise. -/
def dictSet (d : PDict) (k : PStr) (v : PAtom) : PDict :=
  if (d.lookup k).isSome then d.map (fun e => if e.1 == k then (e.1, v) else e)
  else d ++ [(k, v)]

/-- Python `d.pop(k)`'s effect on the dict (keys are unique in a dict). -/
def dictPop (d : PDict) (k : PStr) : PDict := d.filter (fun e => !(e.1 == k))

/-- The argument normalization of controller.run_tool (lines 175-188):
inject `year`/`quarter` from the session state for the retrieval and
structured-data tools, flatten a quarter list to its first element for the
retrieval tool (IndexError on an empty list), rename `input` to `query` and
default `query` for the structured-data tool.  (The `isinstance(tool_args,
dict)` coercion of line 175 is unrepresentable here: argument bundles are
dicts by type.) -/
def normalize_args (tool : PStr) (args : PDict) (year quarter : PAtom) :
    Except PyErr PDict :=
  let a1 := if tool == ragName || tool == snowName then
      dictSet (dictSet args (pstr "year") year) (pstr "quarter") quarter
    else args
  let a2e : Except PyErr PDict :=
    if tool == ragName then
      match a1.lookup (pstr "quarter") with
      | some (.vlist (q :: _)) => .ok (dictSet a1 (pstr "quarter") (.vstr q))
      | some (.vlist []) => .error .indexError
      | _ => .ok a1
    else .ok a1
  match a2e with
  | .error e => .error e
  | .ok a2 =>
    if tool == snowName then
      let a3 := match a2.lookup (pstr "input") with
        | some v => dictSet (dictPop a2 (pstr "input")) (pstr "query") v
        | none => a2
      match a3.lookup (pstr "query") with
      | some v => .ok (dictSet a3 (pstr "query") v)
      | none => .ok (dictSet a3 (pstr "query") (.vstr (pstr "Give me a financial analysis")))
    else .ok a2

/-- controller.run_tool (lines 170-206).  `invoke` is the behavior of the
looked-up tool adapter (`tool_map[tool].invoke`); the lookup raises KeyError
for an unknown identifier, adapter exceptions propagate (there is no
try/except), and a retrieval result longer than 8000 characters is sliced
to its first 8000 characters before being stored. -/
def run_tool (invoke : PStr → PDict → Except PyErr PResult) (state : AgentState) :
    Except PyErr AgentState :=
  match state.intermediate_steps.getLast? with
  | none => .error .indexError
  | some ca =>
    if registryNames.contains ca.tool then
      match normalize_args ca.tool ca.tool_input state.year state.quarter with
      | .error e => .error e
      | .ok nargs =>
        match invoke ca.tool nargs with
        | .error e => .error e
        | .ok result =>
          let log0 := logStrOf result
          let log1 := if ca.tool = ragName ∧ 8000 < log0.length then log0.take 8000 else log0
          .ok { state with intermediate_steps := state.intermediate_steps ++
            [{ tool := ca.tool, tool_input := nargs, log := log1 }] }
    else .error (.keyError ca.tool)

/-- controller.route_agent (lines 210-214): route on the tool of the last
recorded step, `final_answer` when the history is empty. -/
def route_agent (state : AgentState) : PStr :=
  match state.intermediate_steps.getLast? with
  | some a => a.tool
  | none => finalName

/-! ### The compiled graph (controller.build_graph, lines 217-234) -/

/-- Observable status of a session run. -/
inductive LoopRes where
  | running (s : AgentState)
  | done (s : AgentState)
  | failed (e : PyErr)
  deriving DecidableEq

/-- One dispatch cycle of the compiled graph: the oracle node runs, the
conditional edge routes on the appended record's tool, the tool node runs
(`final_answer` is itself a node running run_tool), and the `final_answer`
node leads to END while every other tool node returns to the oracle.
An uncaught exception ends the run as `failed`. -/
def loopStep (invoke : PStr → PDict → Except PyErr PResult)
    (resp : Except PyErr (List ToolCall)) : LoopRes → LoopRes
  | .running s =>
    match run_oracle s resp with
    | .error e => .failed e
    | .ok s' =>
      match run_tool invoke s' with
      | .error e => .failed e
      | .ok s'' => if route_agent s' == finalName then .done s'' else .running s''
  | r => r

/-- The session run after `k` dispatch cycles, with `props k` the model
response of the k-th oracle invocation. -/
def loopRun (invoke : PStr → PDict → Except PyErr PResult)
    (props : Nat → Except PyErr (List ToolCall)) (init : AgentState) : Nat → LoopRes
  | 0 => .running init
  | k + 1 => loopStep invoke (props k) (loopRun invoke props init k)

/-! ### The finalize tool (controller.py lines 31-62) -/

/-- The final_answer tool: joins a list-valued `research_steps` and
`sources` into bullet text (stringifying non-list values) and returns the
report dict with its fixed field order. -/
def final_answer (research_steps : PAtom)
    (historical_performance financial_analysis industry_insights summary : PStr)
    (sources : PAtom) (analysis_type : PStr) : PDict :=
  let steps := match research_steps with
    | .vlist l => joinSep [10] (l.map (fun s => pstr "- " ++ s))
    | v => strOfAtom v
  let sources_str := match sources with
    | .vlist l => joinSep [10] (l.map (fun s => pstr "- " ++ s))
    | v => strOfAtom v
  [(pstr "research_steps", .vstr steps),
   (pstr "historical_performance", .vstr historical_performance),
   (pstr "financial_analysis", .vstr financial_analysis),
   (pstr "industry_insights", .vstr industry_insights),
   (pstr "summary", .vstr summary),
   (pstr "analysis_type", .vstr analysis_type),
   (pstr "sources", .vstr sources_str)]

/-! ### The scratchpad-style variant (langgraph_controller.py) -/

/-- An agent outcome of the scratchpad variant: an AgentFinish or one tool
action (tool, tool_input, tool_call_id). -/
inductive LgOutcome where
  | finish (output : PStr)
  | act (tool : PStr) (tool_input : PStr) (tool_call_id : PStr)
  deriving DecidableEq

/-- The AgentState TypedDict of langgraph_controller.py (lines 20-26). -/
structure LgState where
  input : PStr
  chat_history : List PStr
  intermediate_steps : List (LgOutcome × PStr)
  year : PStr
  quarter : List PStr
  agent_outcome : Option LgOutcome
  deriving DecidableEq

/-- langgraph_controller.run_tool (lines 103-152).  `invoke` is
`tool_map[tool_name].invoke(tool_input)`: both a registry KeyError and any
adapter exception are raised inside the try block and caught, becoming the
textual result `"Tool {name} encountered an error: {e}"`; the resolved pair
and both chat messages are appended and `agent_outcome` is reset. -/
def lg_run_tool (invoke : PStr → PStr → Except PStr PStr) (state : LgState) :
    Except PyErr LgState :=
  match state.agent_outcome with
  | none => .error (.valueError (pstr "Missing agent_outcome. Ensure oracle runs before tools."))
  | some (.finish _) => .ok state
  | some (.act tool input callId) =>
    let result : PStr :=
      match invoke tool input with
      | .ok r => r
      | .error e => pstr "Tool " ++ tool ++ pstr " encountered an error: " ++ e
    .ok { state with
      intermediate_steps := state.intermediate_steps ++ [(.act tool input callId, result)],
      chat_history := state.chat_history ++
        [pstr "Tool " ++ [39] ++ tool ++ [39] ++ pstr " result: " ++ result, result],
      agent_outcome := none }

/-! ### Retrieval tool (rag_tool.py, pinecone_utils.py) -/

/-- One pinecone match, reduced to its metadata dict. -/
structure PineMatch where
  metadata : PDict
  deriving DecidableEq

/-- pinecone_utils.search_chunks (lines 29-64): the metadata `text` of every
match carrying one, where `matches` is what the external index query
returned for (query, year, quarter). -/
def search_chunks (ms : List PineMatch) : List PStr :=
  ms.filterMap (fun m =>
    match m.metadata.lookup (pstr "text") with
    | some (.vstr t) => some t
    | _ => none)

/-- The no-data marker of rag_tool.vector_search_tool (line 23). -/
def noDataMarker : PStr := pstr "No relevant information found in historical reports."

/-- rag_tool.vector_search_tool (lines 8-29): collect the chunks of every
requested quarter, return the no-data marker when none were found, else the
joined context.  `searchM` is the external pinecone query behind
search_chunks. -/
def vector_search_tool (searchM : PStr → PStr → PStr → List PineMatch)
    (input year : PStr) (quarter : List PStr) : PStr :=
  let results := quarter.flatMap (fun q => search_chunks (searchM input year q))
  if results.isEmpty then noDataMarker
  else joinSep (pstr "\n\n") results

/-- snowflake_tool.snowflake_query_tool (lines 98-165): the entire body is
one try/except returning the error marker string on any exception; `body`
abstracts the outcome of the external snowflake/S3/chart work. -/
def snowflake_query_tool (body : Except PStr PStr) : PStr :=
  match body with
  | .ok s => s
  | .error e => pstr "❌ Error: " ++ e

/-! ### json.loads (used by backend/main.py on the final report) -/

/-- Value of a hex digit accepted by json.loads (0-9, a-f, A-F). -/
def hexVal (c : Nat) : Option Nat :=
  if 48 ≤ c ∧ c ≤ 57 then some (c - 48)
  else if 97 ≤ c ∧ c ≤ 102 then some (c - 87)
  else if 65 ≤ c ∧ c ≤ 70 then some (c - 55)
  else none

/-- The two-character escapes accepted by json.loads (its BACKSLASH table,
including `\/`). -/
def escTable : Nat → Option Nat
  | 34 => some 34
  | 92 => some 92
  | 47 => some 47
  | 98 => some 8
  | 102 => some 12
  | 110 => some 10
  | 114 => some 13
  | 116 => some 9
  | _ => none

/-- A low-surrogate `\uXXXX` escape at the head of the stream, used by the
scanner to combine surrogate pairs. -/
def parseLowSur : List Nat → Option (Nat × List Nat)
  | 92 :: 117 :: a :: b :: c :: d :: rest =>
    (match hexVal a, hexVal b, hexVal c, hexVal d with
    | some ha, some hb, some hc, some hd =>
      let v2 := ha * 4096 + hb * 256 + hc * 16 + hd
      if 56320 ≤ v2 ∧ v2 ≤ 57343 then some (v2, rest) else none
    | _, _, _, _ => none)
  | _ => none

lemma parseLowSur_len {l : List Nat} {p : Nat × List Nat}
    (h : parseLowSur l = some p) : p.2.length + 6 ≤ l.length := by
  unfold parseLowSur at h
  split at h
  · split at h
    · dsimp only at h
      split at h
      · simp only [Option.some.injEq] at h
        subst h
        simp
      · simp at h
    · simp at h
  · simp at h

/-- Body of a JSON string after the opening quote, as scanned by
json.loads (py_scanstring, strict mode): a closing quote ends the string,
backslash escapes (including `\\uXXXX` and surrogate-pair combination) are
decoded, raw control characters are rejected.  The fuel argument only
bounds the number of scanning steps; every step consumes at least one
character, so `input.length + 1` steps always suffice. -/
def parseStrBody : Nat → List Nat → Option (PStr × List Nat)
  | 0, _ => none
  | _ + 1, [] => none
  | _ + 1, 34 :: rest => some ([], rest)
  | fuel + 1, 92 :: 117 :: a :: b :: c :: d :: rest =>
    (match hexVal a, hexVal b, hexVal c, hexVal d with
    | some ha, some hb, some hc, some hd =>
      let v := ha * 4096 + hb * 256 + hc * 16 + hd
      if 55296 ≤ v ∧ v ≤ 56319 then
        match parseLowSur rest with
        | some p =>
          (parseStrBody fuel p.2).map
            (fun q => ((65536 + (v - 55296) * 1024 + (p.1 - 56320)) :: q.1, q.2))
        | none => (parseStrBody fuel rest).map (fun q => (v :: q.1, q.2))
      else (parseStrBody fuel rest).map (fun q => (v :: q.1, q.2))
    | _, _, _, _ => none)
  | fuel + 1, 92 :: e :: rest =>
    (escTable e).bind (fun u => (parseStrBody fuel rest).map (fun q => (u :: q.1, q.2)))
  | fuel + 1, c :: rest =>
    if c < 32 then none
    else (parseStrBody fuel rest).map (fun q => (c :: q.1, q.2))

/-- A JSON string including its opening quote. -/
def parseJStr (l : List Nat) : Option (PStr × List Nat) :=
  match l with
  | 34 :: rest => parseStrBody (rest.length + 1) rest
  | _ => none

/-- Items of a nonempty JSON array of strings in the format jsonDumps
emits (separator `", "`); the fuel bounds the item count. -/
def parseItems : Nat → List Nat → Option (List PStr × List Nat)
  | 0, _ => none
  | fuel + 1, l =>
    (parseJStr l).bind (fun (p : PStr × List Nat) =>
      match p.2 with
      | 44 :: 32 :: r2 => (parseItems fuel r2).map (fun q => (p.1 :: q.1, q.2))
      | 93 :: r2 => some ([p.1], r2)
      | _ => none)

/-- A JSON value of the report grammar: a string, an array of strings or
null. -/
def parseAtom (l : List Nat) : Option (PAtom × List Nat) :=
  match l with
  | 34 :: _ => (parseJStr l).map (fun p => (.vstr p.1, p.2))
  | 91 :: 93 :: rest => some (.vlist [], rest)
  | 91 :: rest => (parseItems (rest.length + 1) rest).map (fun p => (.vlist p.1, p.2))
  | 110 :: 117 :: 108 :: 108 :: rest => some (.vnone, rest)
  | _ => none

/-- Entries of a nonempty JSON object in the format jsonDumps emits
(separators `": "` and `", "`), up to and including the closing brace; the
fuel bounds the entry count. -/
def parseEntries : Nat → List Nat → Option (PDict × List Nat)
  | 0, _ => none
  | fuel + 1, l =>
    (parseJStr l).bind (fun (p : PStr × List Nat) =>
      match p.2 with
      | 58 :: 32 :: r2 =>
        (parseAtom r2).bind (fun (q : PAtom × List Nat) =>
          match q.2 with
          | 44 :: 32 :: r3 => (parseEntries fuel r3).map (fun w => ((p.1, q.1) :: w.1, w.2))
          | 125 :: r3 => some ([(p.1, q.1)], r3)
          | _ => none)
      | _ => none)

/-- json.loads restricted to the object texts jsonDumps emits, with no
trailing data allowed; every other input is a parse failure (`none`),
modelling the json.loads exception path of backend/main.py lines 70-73. -/
def jsonParse (l : List Nat) : Option PDict :=
  match l with
  | 123 :: 125 :: rest => if rest = [] then some [] else none
  | 123 :: rest =>
    (parseEntries (rest.length + 1) rest).bind
      (fun p => if p.2 = [] then some p.1 else none)
  | _ => none

/-! ### HTTP entry point (backend/main.py) -/

/-- The response payload of /query_research_agent. -/
inductive Answer where
  | structured (d : PDict)
  | summaryText (s : PStr)
  deriving DecidableEq

/-- A 2xx answer or the HTTP 500 error envelope. -/
inductive Response where
  | answer (a : Answer)
  | errorEnvelope (e : PyErr)
  deriving DecidableEq

/-- main.query_nvidia_documents (lines 36-87) after the graph run: any
exception becomes an HTTP 500 error envelope; otherwise the last step's log
is returned, parsed as structured data when the final_answer tool produced
it and falling back to an opaque summary string when parsing fails. -/
def query_nvidia_documents (outcome : Except PyErr AgentState) : Response :=
  match outcome with
  | .error e => .errorEnvelope e
  | .ok finalState =>
    match finalState.intermediate_steps.getLast? with
    | none => .errorEnvelope .indexError
    | some last =>
      if last.tool == finalName then
        match jsonParse last.log with
        | some d => .answer (.structured d)
        | none => .answer (.summaryText last.log)
      else .answer (.summaryText last.log)

/-! ### Shape lemmas for the state transitions -/

lemma run_oracle_ok_shape {state : AgentState} {resp : Except PyErr (List ToolCall)}
    {s' : AgentState} (h : run_oracle state resp = .ok s') :
    ∃ a, s' = { state with intermediate_steps := state.intermediate_steps ++ [a] } := by
  unfold run_oracle at h
  split at h
  · exact Except.noConfusion h
  · exact Except.noConfusion h
  · split at h
    · injection h with h
      exact ⟨_, h.symm⟩
    · injection h with h
      exact ⟨_, h.symm⟩

lemma run_tool_ok_shape {invoke : PStr → PDict → Except PyErr PResult}
    {state s' : AgentState} (h : run_tool invoke state = .ok s') :
    ∃ a, s' = { state with intermediate_steps := state.intermediate_steps ++ [a] } := by
  unfold run_tool at h
  split at h
  · exact Except.noConfusion h
  · split at h
    · split at h
      · exact Except.noConfusion h
      · split at h
        · exact Except.noConfusion h
        · injection h with h
          exact ⟨_, h.symm⟩
    · exact Except.noConfusion h

/-! ### C9 -/

/-- C9: the loop guard's duplicate check is a pure, deterministic function of
the resolved history and the proposed action: two evaluations on the same
inputs yield the same forced/not-forced decision, and the decision step's
behavior is likewise determined by its inputs. -/
theorem c9_guard_deterministic (steps steps' : List AgentAction) (tc tc' : ToolCall)
    (hs : steps = steps') (ht : tc = tc') :
    loopGuard steps tc.name tc.args = loopGuard steps' tc'.name tc'.args ∧
    ∀ state state' : AgentState, state = state' →
      run_oracle state (.ok [tc]) = run_oracle state' (.ok [tc']) := by
  subst hs
  subst ht
  exact ⟨rfl, fun _ _ h => by rw [h]⟩

/-- Witness for C9 at a concrete history and proposal. -/
theorem c9_witness :
    loopGuard [] (pstr "web_search") [] = loopGuard [] (pstr "web_search") [] := by
  have h := c9_guard_deterministic [] [] ⟨pstr "web_search", []⟩ ⟨pstr "web_search", []⟩ rfl rfl
  exact h.1

/-! ### C5 -/

/-- C5 (code bug evaluation): the decision step performs no error capture.
A model response with no tool call makes `output.tool_calls[0]` raise
IndexError, and an inference failure propagates unchanged; the fault ends
the session and surfaces only as the HTTP 500 envelope of the entry point,
so no signaled error ever reaches the router. -/
theorem c5_unguarded_fault_eval :
    run_oracle ⟨pstr "q", [], [], .vnone, .vnone⟩ (.ok []) = .error .indexError ∧
    (∀ (state : AgentState) (e : PyErr), run_oracle state (.error e) = .error e) ∧
    query_nvidia_documents (.error .indexError) = .errorEnvelope .indexError := by
  exact ⟨rfl, fun _ _ => rfl, rfl⟩

/-! ### C6 -/

/-- C6: both state transitions (decision step and dispatcher) only append to
the action-record sequence: the previous sequence is a prefix of the new
one, and every already-recorded action record (its tool identifier,
argument bundle and result payload) is unchanged at its position. -/
theorem c6_append_only (state : AgentState) (resp : Except PyErr (List ToolCall))
    (invoke : PStr → PDict → Except PyErr PResult) (s' s'' : AgentState)
    (ho : run_oracle state resp = .ok s') (ht : run_tool invoke state = .ok s'') :
    (state.intermediate_steps <+: s'.intermediate_steps ∧
      ∀ i, i < state.intermediate_steps.length →
        s'.intermediate_steps[i]? = state.intermediate_steps[i]?) ∧
    (state.intermediate_steps <+: s''.intermediate_steps ∧
      ∀ i, i < state.intermediate_steps.length →
        s''.intermediate_steps[i]? = state.intermediate_steps[i]?) := by
  obtain ⟨a, ha⟩ := run_oracle_ok_shape ho
  obtain ⟨b, hb⟩ := run_tool_ok_shape ht
  subst ha
  subst hb
  exact ⟨⟨⟨[a], rfl⟩, fun i hi => List.getElem?_append_left hi⟩,
    ⟨[b], rfl⟩, fun i hi => List.getElem?_append_left hi⟩

def c6state : AgentState :=
  ⟨pstr "q", [], [⟨webName, [(pstr "query", .vstr (pstr "news"))], pstr "TBD"⟩], .vnone, .vnone⟩

/-- Witness for C6: a concrete decision step and dispatch both extend the
one-record history by appending. -/
theorem c6_witness :
    c6state.intermediate_steps.length = 1 ∧
    ∃ s' s'' : AgentState,
      run_oracle c6state (.ok [⟨ragName, []⟩]) = .ok s' ∧
      run_tool (fun _ _ => .ok (.rstr (pstr "ok"))) c6state = .ok s'' ∧
      c6state.intermediate_steps <+: s'.intermediate_steps ∧
      c6state.intermediate_steps <+: s''.intermediate_steps := by
  refine ⟨rfl, ?_⟩
  obtain ⟨h1, h2⟩ := c6_append_only c6state (.ok [⟨ragName, []⟩])
    (fun _ _ => .ok (.rstr (pstr "ok")))
    { c6state with intermediate_steps := c6state.intermediate_steps ++
        [⟨ragName, [], pstr "TBD"⟩] }
    { c6state with intermediate_steps := c6state.intermediate_steps ++
        [⟨webName, [(pstr "query", .vstr (pstr "news"))], pstr "ok"⟩] }
    (by rfl) (by rfl)
  exact ⟨_, _, by rfl, by rfl, h1.1, h2.1⟩

/-! ### C4 -/

/-- C4 (amended): the scratchpad text is at most 12000 characters, is a
deterministic function of the history, and the truncation keeps a PREFIX of
the joined text — that is, the oldest entries — dropping the most recent
ones when the budget is exceeded. -/
theorem c4_amended_truncation (steps : List AgentAction) :
    (build_scratchpad steps).length ≤ 12000 ∧
    build_scratchpad steps <+: joinSep (pstr "\n---\n") (steps.map fmtScratchStep) ∧
    ∀ steps', steps = steps' → build_scratchpad steps = build_scratchpad steps' := by
  refine ⟨?_, List.take_prefix 12000 _, fun _ h => by rw [h]⟩
  unfold build_scratchpad
  rw [List.length_take]
  omega

def c4big : AgentAction := ⟨ragName, [], List.replicate 13000 97⟩

def c4small : AgentAction := ⟨webName, [], [90]⟩

/-- Modelled from the spec: "truncation keeps the most recent entries
preferably" — after truncation the most recent history entry's formatted
text still occurs somewhere in the scratchpad text. -/
def keepsMostRecent (steps : List AgentAction) : Prop :=
  ∀ last, steps.getLast? = some last →
    fmtScratchStep last <:+: build_scratchpad steps

/-- C4 counterexample: with an old 13000-character retrieval record followed
by a fresh web-search record, the 12000-character slice keeps only the start
of the OLD entry and drops the most recent entry entirely, refuting "keeps
the most recent entries preferably". -/
theorem c4_counterexample : ¬ keepsMostRecent [c4big, c4small] := by
  intro h
  have hmem : (90 : Nat) ∈ build_scratchpad [c4big, c4small] :=
    (h c4small rfl).sublist.subset (by decide)
  have hbig : fmtScratchStep c4big =
      (pstr "Tool: " ++ c4big.tool ++ pstr "\nInput: " ++ pyReprDict c4big.tool_input ++
        pstr "\nOutput: ") ++ List.replicate 13000 97 := rfl
  have hlen : 12000 ≤ (fmtScratchStep c4big).length := by
    rw [hbig, List.length_append, List.length_replicate]
    omega
  have hjoin : build_scratchpad [c4big, c4small] =
      ((fmtScratchStep c4big ++ pstr "\n---\n") ++ fmtScratchStep c4small).take 12000 := rfl
  have h12 : 12000 - (fmtScratchStep c4big).length = 0 := by omega
  rw [hjoin, List.append_assoc, List.take_append_eq_append_take, h12] at hmem
  simp only [List.take_zero, List.append_nil] at hmem
  have hmem2 : (90 : Nat) ∈ fmtScratchStep c4big := List.mem_of_mem_take hmem
  rw [hbig] at hmem2
  rcases List.mem_append.mp hmem2 with hin | hin
  · exact absurd hin (by decide)
  · exact absurd (List.eq_of_mem_replicate hin) (by decide)

/-! ### Loop guard helpers -/

lemma loopGuard_of_mem {steps : List AgentAction} {tc : ToolCall}
    (h : ∃ st ∈ steps, st.tool = tc.name ∧ st.tool_input = tc.args) :
    loopGuard steps tc.name tc.args = true := by
  obtain ⟨st, hmem, h1, h2⟩ := h
  exact List.any_eq_true.mpr ⟨st, hmem, by rw [h1, h2]; simp⟩

lemma run_oracle_forced {state : AgentState} {tc : ToolCall} {rest : List ToolCall}
    (h : loopGuard state.intermediate_steps tc.name tc.args = true) :
    run_oracle state (.ok (tc :: rest)) =
      .ok { state with intermediate_steps := state.intermediate_steps ++
        [{ tool := finalName, tool_input := finalOutput state.intermediate_steps,
           log := jsonDumps (finalOutput state.intermediate_steps) }] } := by
  unfold run_oracle
  simp [h]

lemma run_oracle_pending {state : AgentState} {tc : ToolCall} {rest : List ToolCall}
    (h : loopGuard state.intermediate_steps tc.name tc.args = false) :
    run_oracle state (.ok (tc :: rest)) =
      .ok { state with intermediate_steps := state.intermediate_steps ++
        [{ tool := tc.name, tool_input := tc.args, log := pstr "TBD" }] } := by
  unfold run_oracle
  simp [h]

lemma finalOutput_lookup_hp (steps : List AgentAction) :
    (finalOutput steps).lookup (pstr "historical_performance") =
      some (.vstr ((lastLog steps ragName).getD (pstr "N/A"))) := rfl

lemma finalOutput_lookup_fa (steps : List AgentAction) :
    (finalOutput steps).lookup (pstr "financial_analysis") =
      some (.vstr ((lastLog steps snowName).getD (pstr "N/A"))) := rfl

lemma finalOutput_lookup_ii (steps : List AgentAction) :
    (finalOutput steps).lookup (pstr "industry_insights") =
      some (.vstr ((lastLog steps webName).getD (pstr "N/A"))) := rfl

/-! ### C1 -/

/-- C1: when the history already holds a record with the proposed tool
identifier and argument bundle (structural equality), run_oracle overrides
the proposal: exactly one record is appended, it is a final_answer action,
its argument bundle carries for each report field the LATEST log of the
corresponding tool — the "N/A" marker when that tool never ran — and its
result payload is the serialized report; no tool adapter is invoked
(run_oracle takes no adapter and only appends). -/
theorem c1_loop_guard_forced_finalize (state : AgentState) (tc : ToolCall)
    (rest : List ToolCall)
    (hdup : ∃ st ∈ state.intermediate_steps, st.tool = tc.name ∧ st.tool_input = tc.args) :
    ∃ a : AgentAction,
      run_oracle state (.ok (tc :: rest)) =
        .ok { state with intermediate_steps := state.intermediate_steps ++ [a] } ∧
      a.tool = finalName ∧
      a.tool_input.lookup (pstr "historical_performance") =
        some (.vstr ((lastLog state.intermediate_steps ragName).getD (pstr "N/A"))) ∧
      a.tool_input.lookup (pstr "financial_analysis") =
        some (.vstr ((lastLog state.intermediate_steps snowName).getD (pstr "N/A"))) ∧
      a.tool_input.lookup (pstr "industry_insights") =
        some (.vstr ((lastLog state.intermediate_steps webName).getD (pstr "N/A"))) ∧
      (lastLog state.intermediate_steps ragName = none →
        a.tool_input.lookup (pstr "historical_performance") = some (.vstr (pstr "N/A"))) ∧
      a.log = jsonDumps a.tool_input := by
  refine ⟨_, run_oracle_forced (loopGuard_of_mem hdup), rfl,
    finalOutput_lookup_hp _, finalOutput_lookup_fa _, finalOutput_lookup_ii _, ?_, rfl⟩
  intro hnone
  rw [finalOutput_lookup_hp, hnone]
  rfl

def c1state : AgentState :=
  ⟨pstr "q", [],
   [⟨webName, [(pstr "query", .vstr (pstr "n"))], pstr "TBD"⟩,
    ⟨webName, [(pstr "query", .vstr (pstr "n"))], pstr "trends text"⟩],
   .vnone, .vnone⟩

def c1tc : ToolCall := ⟨webName, [(pstr "query", .vstr (pstr "n"))]⟩

/-- Witness for C1: a concrete duplicate web-search proposal is overridden
by a forced final_answer record carrying the recorded web output and "N/A"
markers for the tools never invoked. -/
theorem c1_witness :
    ∃ a : AgentAction,
      run_oracle c1state (.ok [c1tc]) =
        .ok { c1state with intermediate_steps := c1state.intermediate_steps ++ [a] } ∧
      a.tool = finalName ∧
      a.tool_input.lookup (pstr "historical_performance") =
        some (.vstr ((lastLog c1state.intermediate_steps ragName).getD (pstr "N/A"))) ∧
      a.tool_input.lookup (pstr "financial_analysis") =
        some (.vstr ((lastLog c1state.intermediate_steps snowName).getD (pstr "N/A"))) ∧
      a.tool_input.lookup (pstr "industry_insights") =
        some (.vstr ((lastLog c1state.intermediate_steps webName).getD (pstr "N/A"))) ∧
      (lastLog c1state.intermediate_steps ragName = none →
        a.tool_input.lookup (pstr "historical_performance") = some (.vstr (pstr "N/A"))) ∧
      a.log = jsonDumps a.tool_input :=
  c1_loop_guard_forced_finalize c1state c1tc []
    ⟨⟨webName, [(pstr "query", .vstr (pstr "n"))], pstr "TBD"⟩, by decide, rfl, rfl⟩

/-! ### C10 -/

lemma run_tool_eval {invoke : PStr → PDict → Except PyErr PResult}
    {state : AgentState} {ca : AgentAction} {nargs : PDict} {res : PResult}
    (hlast : state.intermediate_steps.getLast? = some ca)
    (hreg : registryNames.contains ca.tool = true)
    (hnorm : normalize_args ca.tool ca.tool_input state.year state.quarter = .ok nargs)
    (hinv : invoke ca.tool nargs = .ok res) :
    run_tool invoke state =
      .ok { state with intermediate_steps := state.intermediate_steps ++
        [{ tool := ca.tool, tool_input := nargs,
           log := if ca.tool = ragName ∧ 8000 < (logStrOf res).length
             then (logStrOf res).take 8000 else logStrOf res }] } := by
  unfold run_tool
  rw [hlast]
  simp only [hreg, if_true]
  rw [hnorm]
  dsimp only
  rw [hinv]

/-- C10: a successful dispatch appends exactly one resolved record; for the
retrieval tool the stored result payload is the first 8000 characters of the
adapter's (stringified) result — hence always at most 8000 characters —
while every other tool's payload is stored untruncated. -/
theorem c10_rag_truncation (invoke : PStr → PDict → Except PyErr PResult)
    (state : AgentState) (ca : AgentAction) (nargs : PDict) (res : PResult)
    (hlast : state.intermediate_steps.getLast? = some ca)
    (hreg : registryNames.contains ca.tool = true)
    (hnorm : normalize_args ca.tool ca.tool_input state.year state.quarter = .ok nargs)
    (hinv : invoke ca.tool nargs = .ok res) :
    ∃ r : AgentAction,
      run_tool invoke state =
        .ok { state with intermediate_steps := state.intermediate_steps ++ [r] } ∧
      r.tool = ca.tool ∧ r.tool_input = nargs ∧
      (ca.tool = ragName → r.log = (logStrOf res).take 8000 ∧ r.log.length ≤ 8000) ∧
      (ca.tool ≠ ragName → r.log = logStrOf res) := by
  refine ⟨_, run_tool_eval hlast hreg hnorm hinv, rfl, rfl, ?_, ?_⟩
  · intro hr
    by_cases hlen : 8000 < (logStrOf res).length
    · rw [if_pos ⟨hr, hlen⟩]
      exact ⟨rfl, by rw [List.length_take]; omega⟩
    · rw [if_neg (by tauto)]
      dsimp only
      exact ⟨(List.take_of_length_le (by omega)).symm, by omega⟩
  · intro hr
    rw [if_neg (by tauto)]

def c10state : AgentState :=
  ⟨pstr "total revenue", [],
   [⟨ragName, [(pstr "query", .vstr (pstr "total revenue"))], pstr "TBD"⟩],
   .vstr (pstr "2024"), .vnone⟩

def c10nargs : PDict :=
  [(pstr "query", .vstr (pstr "total revenue")),
   (pstr "year", .vstr (pstr "2024")), (pstr "quarter", .vnone)]

/-- Witness for C10 at a concrete retrieval dispatch. -/
theorem c10_witness :
    ∃ r : AgentAction,
      run_tool (fun _ _ => .ok (.rstr (pstr "chunk text"))) c10state =
        .ok { c10state with intermediate_steps := c10state.intermediate_steps ++ [r] } ∧
      r.tool = ragName ∧ r.tool_input = c10nargs ∧
      (ragName = ragName →
        r.log = (logStrOf (.rstr (pstr "chunk text"))).take 8000 ∧ r.log.length ≤ 8000) ∧
      (ragName ≠ ragName → r.log = logStrOf (.rstr (pstr "chunk text"))) :=
  c10_rag_truncation (fun _ _ => .ok (.rstr (pstr "chunk text"))) c10state
    ⟨ragName, [(pstr "query", .vstr (pstr "total revenue"))], pstr "TBD"⟩
    c10nargs (.rstr (pstr "chunk text")) rfl rfl (by rfl) rfl

/-! ### C3 -/

/-- C3 (amended): in the scratchpad-style dispatcher
(langgraph_controller.run_tool) an adapter failure is caught locally and the
step appends a resolved record whose payload is the non-empty string
"Tool {name} encountered an error: {e}" (beginning with that marker), and
the step itself succeeds; the structured-data adapter moreover catches its
own upstream failures, returning the non-empty "❌ Error: "-prefixed string;
in the tool-calling dispatcher (controller.run_tool) a tool identifier with
no registry mapping fails loudly with KeyError. -/
theorem c3_amended_error_capture
    (invoke : PStr → PStr → Except PStr PStr) (st : LgState)
    (tool input cid : PStr) (e : PStr)
    (hout : st.agent_outcome = some (.act tool input cid))
    (hfail : invoke tool input = .error e)
    (inv2 : PStr → PDict → Except PyErr PResult) (st2 : AgentState) (ca : AgentAction)
    (hlast : st2.intermediate_steps.getLast? = some ca)
    (hmiss : registryNames.contains ca.tool = false) :
    (∃ s', lg_run_tool invoke st = .ok s' ∧
      s'.intermediate_steps = st.intermediate_steps ++
        [(.act tool input cid, pstr "Tool " ++ tool ++ pstr " encountered an error: " ++ e)] ∧
      pstr "Tool " ++ tool ++ pstr " encountered an error: " ++ e ≠ [] ∧
      pstr "Tool " <+: pstr "Tool " ++ tool ++ pstr " encountered an error: " ++ e) ∧
    (∀ e', snowflake_query_tool (.error e') = pstr "❌ Error: " ++ e' ∧
      snowflake_query_tool (.error e') ≠ []) ∧
    run_tool inv2 st2 = .error (.keyError ca.tool) := by
  refine ⟨?_, fun e' => ⟨rfl, ?_⟩, ?_⟩
  · refine ⟨{ st with
        intermediate_steps := st.intermediate_steps ++
          [(.act tool input cid, pstr "Tool " ++ tool ++ pstr " encountered an error: " ++ e)],
        chat_history := st.chat_history ++
          [pstr "Tool " ++ [39] ++ tool ++ [39] ++ pstr " result: " ++
            (pstr "Tool " ++ tool ++ pstr " encountered an error: " ++ e),
           pstr "Tool " ++ tool ++ pstr " encountered an error: " ++ e],
        agent_outcome := none }, ?_, rfl, ?_, ?_⟩
    · unfold lg_run_tool
      rw [hout]
      dsimp only
      rw [hfail]
    · intro hc
      have hlenc := congrArg List.length hc
      have h5 : (pstr "Tool ").length = 5 := rfl
      simp only [List.length_append, List.length_nil, h5] at hlenc
      omega
    · exact ⟨tool ++ pstr " encountered an error: " ++ e, by simp [List.append_assoc]⟩
  · intro hc
    have hlenc := congrArg List.length hc
    have h9 : (pstr "❌ Error: ").length = 9 := rfl
    simp only [snowflake_query_tool, List.length_append, List.length_nil, h9] at hlenc
    omega
  · unfold run_tool
    rw [hlast]
    simp only [hmiss, Bool.false_eq_true, if_false]

def c3state : AgentState :=
  ⟨pstr "q", [], [⟨webName, [(pstr "query", .vstr (pstr "NVIDIA news"))], pstr "TBD"⟩],
   .vnone, .vnone⟩

def c3fail : PStr → PDict → Except PyErr PResult :=
  fun _ _ => .error (.toolError (pstr "ConnectionError: tavily unreachable"))

/-- C3 counterexample: in the tool-calling dispatcher (controller.run_tool)
there is no try/except — a web-search adapter failure propagates out of the
dispatcher instead of being recorded, and the whole dispatch cycle ends the
session as failed rather than reaching the terminal state. -/
theorem c3_counterexample :
    run_tool c3fail c3state = .error (.toolError (pstr "ConnectionError: tavily unreachable")) ∧
    loopStep c3fail (.ok [⟨webName, [(pstr "query", .vstr (pstr "NVIDIA news"))]⟩])
        (.running ⟨pstr "q", [], [], .vnone, .vnone⟩) =
      .failed (.toolError (pstr "ConnectionError: tavily unreachable")) := by
  exact ⟨rfl, rfl⟩

def c3lgstate : LgState :=
  ⟨pstr "q", [], [], pstr "2024", [pstr "Q1"],
   some (.act snowName (pstr "revenue") (pstr "call_1"))⟩

/-- Witness for C3 (amended) at a concrete failing structured-data call and
a concrete unmapped tool identifier. -/
theorem c3_witness :
    (∃ s', lg_run_tool (fun _ _ => .error (pstr "250001: could not connect")) c3lgstate = .ok s' ∧
      s'.intermediate_steps = c3lgstate.intermediate_steps ++
        [(.act snowName (pstr "revenue") (pstr "call_1"),
          pstr "Tool " ++ snowName ++ pstr " encountered an error: " ++ pstr "250001: could not connect")] ∧
      pstr "Tool " ++ snowName ++ pstr " encountered an error: " ++ pstr "250001: could not connect" ≠ [] ∧
      pstr "Tool " <+: pstr "Tool " ++ snowName ++ pstr " encountered an error: " ++ pstr "250001: could not connect") ∧
    (∀ e', snowflake_query_tool (.error e') = pstr "❌ Error: " ++ e' ∧
      snowflake_query_tool (.error e') ≠ []) ∧
    run_tool c3fail ⟨pstr "q", [], [⟨pstr "mystery_tool", [], pstr "TBD"⟩], .vnone, .vnone⟩ =
      .error (.keyError (pstr "mystery_tool")) :=
  c3_amended_error_capture (fun _ _ => .error (pstr "250001: could not connect")) c3lgstate
    snowName (pstr "revenue") (pstr "call_1") (pstr "250001: could not connect") rfl rfl
    c3fail ⟨pstr "q", [], [⟨pstr "mystery_tool", [], pstr "TBD"⟩], .vnone, .vnone⟩
    ⟨pstr "mystery_tool", [], pstr "TBD"⟩ rfl (by rfl)

/-! ### C8 -/

lemma flatMap_chunks_nil (searchM : PStr → PStr → PStr → List PineMatch)
    (input year : PStr) (quarter : List PStr)
    (hempty : ∀ q ∈ quarter, searchM input year q = []) :
    quarter.flatMap (fun q => search_chunks (searchM input year q)) = [] := by
  induction quarter with
  | nil => rfl
  | cons q qs ih =>
    rw [List.flatMap_cons, hempty q (List.mem_cons_self q qs),
      ih (fun q' hq' => hempty q' (List.mem_cons_of_mem q hq'))]
    rfl

/-- C8: when the underlying search returns zero chunks for every requested
sub-period, the retrieval tool returns the literal no-data marker string
(it is a total function: no error is raised), and when the session's latest
retrieval log is that marker, the forced finalize record's
historical-performance field equals the marker. -/
theorem c8_no_data_marker
    (searchM : PStr → PStr → PStr → List PineMatch) (input year : PStr)
    (quarter : List PStr) (hempty : ∀ q ∈ quarter, searchM input year q = [])
    (state : AgentState) (tc : ToolCall) (rest : List ToolCall)
    (hdup : ∃ st ∈ state.intermediate_steps, st.tool = tc.name ∧ st.tool_input = tc.args)
    (hlog : lastLog state.intermediate_steps ragName = some noDataMarker) :
    vector_search_tool searchM input year quarter = noDataMarker ∧
    ∃ s', run_oracle state (.ok (tc :: rest)) = .ok s' ∧
      ∃ a, s'.intermediate_steps = state.intermediate_steps ++ [a] ∧
        a.tool = finalName ∧
        a.tool_input.lookup (pstr "historical_performance") = some (.vstr noDataMarker) := by
  constructor
  · unfold vector_search_tool
    rw [flatMap_chunks_nil searchM input year quarter hempty]
    rfl
  · refine ⟨_, run_oracle_forced (loopGuard_of_mem hdup), _, rfl, rfl, ?_⟩
    rw [finalOutput_lookup_hp, hlog]
    rfl

def c8state : AgentState :=
  ⟨pstr "total revenue", [],
   [⟨ragName, [(pstr "query", .vstr (pstr "total revenue"))], pstr "TBD"⟩,
    ⟨ragName, [(pstr "query", .vstr (pstr "total revenue")),
               (pstr "year", .vstr (pstr "2024")), (pstr "quarter", .vstr (pstr "Q1"))],
     noDataMarker⟩],
   .vstr (pstr "2024"), .vlist [pstr "Q1"]⟩

/-- Witness for C8: an empty pinecone result for "2024 Q1" yields the
marker, and a duplicate retrieval proposal then forces a finalize whose
historical-performance field is the marker. -/
theorem c8_witness :
    vector_search_tool (fun _ _ _ => []) (pstr "total revenue") (pstr "2024") [pstr "Q1"] =
      noDataMarker ∧
    ∃ s', run_oracle c8state
        (.ok [⟨ragName, [(pstr "query", .vstr (pstr "total revenue"))]⟩]) = .ok s' ∧
      ∃ a, s'.intermediate_steps = c8state.intermediate_steps ++ [a] ∧
        a.tool = finalName ∧
        a.tool_input.lookup (pstr "historical_performance") = some (.vstr noDataMarker) :=
  c8_no_data_marker (fun _ _ _ => []) (pstr "total revenue") (pstr "2024") [pstr "Q1"]
    (fun _ _ => rfl) c8state ⟨ragName, [(pstr "query", .vstr (pstr "total revenue"))]⟩ []
    ⟨⟨ragName, [(pstr "query", .vstr (pstr "total revenue"))], pstr "TBD"⟩,
      by decide, rfl, rfl⟩ (by rfl)

/-! ### C2 -/

/-- The first tool call of the k-th model response (`output.tool_calls[0]`),
when the response carries one. -/
def proposalAt (props : Nat → Except PyErr (List ToolCall)) (i : Nat) : Option ToolCall :=
  match props i with
  | .ok (tc :: _) => some tc
  | _ => none

lemma route_agent_append (s : AgentState) (a : AgentAction) :
    route_agent { s with intermediate_steps := s.intermediate_steps ++ [a] } = a.tool := by
  unfold route_agent
  dsimp only
  rw [List.getLast?_concat]

lemma route_agent_eq (s : AgentState) (l : List AgentAction) (a : AgentAction)
    (h : s.intermediate_steps = l ++ [a]) : route_agent s = a.tool := by
  unfold route_agent
  rw [h, List.getLast?_concat]

lemma loopStep_running {invoke : PStr → PDict → Except PyErr PResult}
    {resp : Except PyErr (List ToolCall)} {s0 s1 : AgentState}
    (h : loopStep invoke resp (.running s0) = .running s1) :
    ∃ tc r, resp = .ok (tc :: r) ∧
      loopGuard s0.intermediate_steps tc.name tc.args = false ∧
      tc.name ≠ finalName ∧
      ∃ b, s1.intermediate_steps =
        (s0.intermediate_steps ++ [⟨tc.name, tc.args, pstr "TBD"⟩]) ++ [b] := by
  rcases resp with e | tcs
  · simp [loopStep, run_oracle] at h
  rcases tcs with _ | ⟨tc, r⟩
  · simp [loopStep, run_oracle] at h
  have hg : loopGuard s0.intermediate_steps tc.name tc.args = false := by
    rcases hg' : loopGuard s0.intermediate_steps tc.name tc.args with _ | _
    · rfl
    exfalso
    rw [loopStep, run_oracle_forced hg'] at h
    dsimp only at h
    rw [route_agent_append] at h
    rcases hrt : run_tool invoke { s0 with intermediate_steps := s0.intermediate_steps ++
        [{ tool := finalName, tool_input := finalOutput s0.intermediate_steps,
           log := jsonDumps (finalOutput s0.intermediate_steps) }] } with e | s''
    all_goals rw [hrt] at h
    · exact LoopRes.noConfusion h
    · dsimp only at h
      rw [if_pos (by rfl)] at h
      exact LoopRes.noConfusion h
  refine ⟨tc, r, rfl, hg, ?_⟩
  rw [loopStep, run_oracle_pending hg] at h
  dsimp only at h
  rw [route_agent_append] at h
  rcases hrt : run_tool invoke { s0 with intermediate_steps := s0.intermediate_steps ++
      [{ tool := tc.name, tool_input := tc.args, log := pstr "TBD" }] } with e | s''
  all_goals rw [hrt] at h
  · exact absurd h (by simp)
  dsimp only at h
  by_cases hf : (tc.name == finalName) = true
  · rw [if_pos hf] at h
    exact absurd h (by simp)
  · rw [if_neg hf] at h
    injection h with h
    subst h
    obtain ⟨b, hb⟩ := run_tool_ok_shape hrt
    subst hb
    exact ⟨fun hc => hf (by rw [hc]; simp), b, rfl⟩

lemma loop_running_inv (invoke : PStr → PDict → Except PyErr PResult)
    (props : Nat → Except PyErr (List ToolCall)) (init : AgentState) :
    ∀ k s, loopRun invoke props init k = .running s →
      (∀ i, i < k → ∃ tc, proposalAt props i = some tc ∧ tc.name ≠ finalName ∧
        (⟨tc.name, tc.args, pstr "TBD"⟩ : AgentAction) ∈ s.intermediate_steps) ∧
      (∀ i j, i < j → j < k → proposalAt props i ≠ proposalAt props j) := by
  intro k
  induction k with
  | zero =>
    intro s _
    exact ⟨fun i hi => absurd hi (by omega), fun i j _ hj => absurd hj (by omega)⟩
  | succ k ih =>
    intro s h
    rw [loopRun] at h
    rcases hk : loopRun invoke props init k with s0 | s0 | e
    all_goals rw [hk] at h
    · obtain ⟨tc, r, hresp, hg, hnf, b, hsteps⟩ := loopStep_running h
      obtain ⟨hmem, hdist⟩ := ih s0 hk
      have hk_prop : proposalAt props k = some tc := by unfold proposalAt; rw [hresp]
      refine ⟨?_, ?_⟩
      · intro i hi
        rcases Nat.lt_succ_iff_lt_or_eq.mp hi with hik | hik
        · obtain ⟨tci, h1, h2, h3⟩ := hmem i hik
          exact ⟨tci, h1, h2, by
            rw [hsteps]
            exact List.mem_append_left _ (List.mem_append_left _ h3)⟩
        · subst hik
          exact ⟨tc, hk_prop, hnf, by
            rw [hsteps]
            exact List.mem_append_left _ (List.mem_append_right _ (by simp))⟩
      · intro i j hij hj
        rcases Nat.lt_succ_iff_lt_or_eq.mp hj with hjk | hjk
        · exact hdist i j hij hjk
        · subst hjk
          obtain ⟨tci, h1, _, h3⟩ := hmem i hij
          rw [h1, hk_prop]
          intro hc
          injection hc with hc
          subst hc
          have hguard := @loopGuard_of_mem s0.intermediate_steps tci ⟨_, h3, rfl, rfl⟩
          rw [hg] at hguard
          exact Bool.noConfusion hguard
    · simp [loopStep] at h
    · simp [loopStep] at h

/-- C2 (amended): whenever the session is still running after k dispatch
cycles, all k proposals so far were tool calls (none a finalize) with
PAIRWISE-DISTINCT tool-plus-argument combinations; hence the number of
dispatch cycles never exceeds (number of distinct combinations actually
proposed) + 1, and when the decision step draws from a finite set of n
combinations the loop leaves the running state within n + 1 cycles.  (No
bound in terms of the number of tools alone holds: see the
counterexample.) -/
theorem c2_amended_cycle_bound (invoke : PStr → PDict → Except PyErr PResult)
    (props : Nat → Except PyErr (List ToolCall)) (init : AgentState)
    (k : Nat) (s : AgentState) (h : loopRun invoke props init k = .running s) :
    (∀ i, i < k → ∃ tc, proposalAt props i = some tc ∧ tc.name ≠ finalName) ∧
    (∀ i j, i < j → j < k → proposalAt props i ≠ proposalAt props j) ∧
    ∀ S : List ToolCall, (∀ i, i < k → ∀ tc, proposalAt props i = some tc → tc ∈ S) →
      k ≤ S.length := by
  obtain ⟨hmem, hdist⟩ := loop_running_inv invoke props init k s h
  refine ⟨fun i hi => (hmem i hi).imp (fun tc p => ⟨p.1, p.2.1⟩), hdist, ?_⟩
  intro S hS
  have hnodup : ((List.range k).map (proposalAt props)).Nodup := by
    refine List.Nodup.map_on ?_ (List.nodup_range k)
    intro i hi j hj hfij
    by_contra hne
    rcases Nat.lt_or_ge i j with hij | hij
    · exact hdist i j hij (List.mem_range.mp hj) hfij
    · exact hdist j i (by omega) (List.mem_range.mp hi) hfij.symm
  have hsub : ((List.range k).map (proposalAt props)) ⊆ S.map some := by
    intro x hx
    obtain ⟨i, hi, rfl⟩ := List.mem_map.mp hx
    obtain ⟨tc, hp, _⟩ := hmem i (List.mem_range.mp hi)
    rw [hp]
    exact List.mem_map.mpr ⟨tc, hS i (List.mem_range.mp hi) tc hp, rfl⟩
  have hlen := List.Subperm.length_le (List.Nodup.subperm hnodup hsub)
  simpa using hlen

def advProps (i : Nat) : Except PyErr (List ToolCall) :=
  .ok [⟨ragName, [(pstr "query", .vstr (List.replicate i 97))]⟩]

def advInvoke : PStr → PDict → Except PyErr PResult := fun _ _ => .ok (.rstr (pstr "ok"))

def advInit : AgentState := ⟨pstr "q", [], [], .vnone, .vnone⟩

def advPend (i : Nat) : AgentAction :=
  ⟨ragName, [(pstr "query", .vstr (List.replicate i 97))], pstr "TBD"⟩

def advRes (i : Nat) : AgentAction :=
  ⟨ragName, [(pstr "query", .vstr (List.replicate i 97)),
             (pstr "year", .vnone), (pstr "quarter", .vnone)], pstr "ok"⟩

def advSteps (k : Nat) : List AgentAction :=
  (List.range k).flatMap (fun i => [advPend i, advRes i])

lemma adv_guard_false (k : Nat) :
    loopGuard (advSteps k) ragName [(pstr "query", .vstr (List.replicate k 97))] = false := by
  rw [loopGuard, List.any_eq_false]
  intro st hst
  obtain ⟨i, hi, hmem⟩ := List.mem_flatMap.mp hst
  have hik : i ≠ k := by
    have := List.mem_range.mp hi
    omega
  simp only [List.mem_cons, List.not_mem_nil, or_false] at hmem
  rcases hmem with h1 | h1
  · subst h1
    simp only [advPend, Bool.and_eq_true, beq_iff_eq, not_and]
    intro _ hc
    apply hik
    simp only [List.cons.injEq, Prod.mk.injEq, PAtom.vstr.injEq, and_true, true_and] at hc
    have := congrArg List.length hc
    simpa using this
  · subst h1
    simp only [advRes, Bool.and_eq_true, beq_iff_eq, not_and]
    intro _ hc
    have := congrArg List.length hc
    simp at this

lemma advSteps_succ (k : Nat) :
    advSteps (k + 1) = (advSteps k ++ [advPend k]) ++ [advRes k] := by
  unfold advSteps
  rw [List.range_succ, List.flatMap_append]
  simp [List.append_assoc]

lemma adv_step (k : Nat) :
    loopStep advInvoke (advProps k)
      (.running { advInit with intermediate_steps := advSteps k }) =
      .running { advInit with intermediate_steps := advSteps (k + 1) } := by
  have h1 : run_oracle { advInit with intermediate_steps := advSteps k } (advProps k) =
      .ok { advInit with intermediate_steps := advSteps k ++ [advPend k] } :=
    run_oracle_pending (adv_guard_false k)
  have hrec : ((⟨(advPend k).tool, (advRes k).tool_input,
      if (advPend k).tool = ragName ∧ 8000 < (logStrOf (.rstr (pstr "ok"))).length
        then (logStrOf (.rstr (pstr "ok"))).take 8000
        else logStrOf (.rstr (pstr "ok"))⟩ : AgentAction) = advRes k) := by
    rw [if_neg (fun hc => absurd hc.2 (by decide))]
    rfl
  have h2 : run_tool advInvoke
      { advInit with intermediate_steps := advSteps k ++ [advPend k] } =
      .ok { advInit with intermediate_steps := advSteps (k + 1) } := by
    have he := @run_tool_eval advInvoke
      { advInit with intermediate_steps := advSteps k ++ [advPend k] }
      (advPend k) ((advRes k).tool_input) (.rstr (pstr "ok"))
      (List.getLast?_concat _) rfl (by rfl) rfl
    rw [he, hrec, advSteps_succ]
  rw [loopStep, h1]
  dsimp only
  rw [h2]
  dsimp only
  rw [route_agent_eq { advInit with intermediate_steps := advSteps k ++ [advPend k] }
    (advSteps k) (advPend k) rfl]
  have hcond : ((advPend k).tool == finalName) = false := rfl
  simp only [hcond, Bool.false_eq_true, if_false]

lemma adv_run (k : Nat) :
    loopRun advInvoke advProps advInit k =
      .running { advInit with intermediate_steps := advSteps k } := by
  induction k with
  | zero => rfl
  | succ k ih =>
    rw [loopRun, ih, adv_step]

/-- The session eventually reaches the terminal (END) state. -/
def reachesTerminal (invoke : PStr → PDict → Except PyErr PResult)
    (props : Nat → Except PyErr (List ToolCall)) (init : AgentState) : Prop :=
  ∃ k s, loopRun invoke props init k = .done s

/-- C2 counterexample: an adversarial decision step that proposes the same
tool with a FRESH argument bundle on every cycle is never stopped by the
loop guard — the session never reaches the terminal state at all, so no
finite cycle bound (in particular none of the form number-of-tools times a
constant) holds for every session. -/
theorem c2_counterexample : ¬ reachesTerminal advInvoke advProps advInit := by
  rintro ⟨k, s, hk⟩
  rw [adv_run k] at hk
  exact LoopRes.noConfusion hk

/-- Witness for C2 (amended) after one dispatch cycle of the adversarial
stream. -/
theorem c2_witness :
    (∀ i, i < 1 → ∃ tc, proposalAt advProps i = some tc ∧ tc.name ≠ finalName) ∧
    (∀ i j, i < j → j < 1 → proposalAt advProps i ≠ proposalAt advProps j) ∧
    ∀ S : List ToolCall, (∀ i, i < 1 → ∀ tc, proposalAt advProps i = some tc → tc ∈ S) →
      1 ≤ S.length :=
  c2_amended_cycle_bound advInvoke advProps advInit 1 _ (adv_run 1)

/-! ### C7: round-trip of the serialized final report -/

/-- A unicode scalar value: what a well-formed Python string holds (no
surrogate code points, below 0x110000). -/
def validCP (c : Nat) : Prop := c < 55296 ∨ (57343 < c ∧ c < 1114112)

instance validCP_dec (c : Nat) : Decidable (validCP c) := by
  unfold validCP
  infer_instance

def validStr (s : PStr) : Prop := ∀ c ∈ s, validCP c

instance validStr_dec (s : PStr) : Decidable (validStr s) := by
  unfold validStr
  infer_instance

def validAtom : PAtom → Prop
  | .vnone => True
  | .vstr s => validStr s
  | .vlist l => ∀ s ∈ l, validStr s

def validDict (d : PDict) : Prop := ∀ e ∈ d, validStr e.1 ∧ validAtom e.2


lemma hexVal_hexDig {d : Nat} (h : d < 16) : hexVal (hexDig d) = some d := by
  rcases Nat.lt_or_ge d 10 with h10 | h10
  · have hd : hexDig d = 48 + d := by unfold hexDig; rw [if_pos h10]
    rw [hd]
    unfold hexVal
    rw [if_pos (by omega)]
    congr 1
    omega
  · have hd : hexDig d = 87 + d := by unfold hexDig; rw [if_neg (by omega)]
    rw [hd]
    unfold hexVal
    rw [if_neg (by omega), if_pos (by omega)]
    congr 1
    omega

lemma parseStrBody_uescape {v : Nat} (hv16 : v < 65536)
    (hnosur : ¬(55296 ≤ v ∧ v ≤ 56319)) (rest : List Nat) (fuel : Nat) :
    parseStrBody (fuel + 1)
      ([92, 117, hexDig (v / 4096 % 16), hexDig (v / 256 % 16),
        hexDig (v / 16 % 16), hexDig (v % 16)] ++ rest) =
      (parseStrBody fuel rest).map (fun q => (v :: q.1, q.2)) := by
  have hstep : parseStrBody (fuel + 1)
      ([92, 117, hexDig (v / 4096 % 16), hexDig (v / 256 % 16),
        hexDig (v / 16 % 16), hexDig (v % 16)] ++ rest) =
    (match hexVal (hexDig (v / 4096 % 16)), hexVal (hexDig (v / 256 % 16)),
        hexVal (hexDig (v / 16 % 16)), hexVal (hexDig (v % 16)) with
      | some ha, some hb, some hc', some hd =>
        let w := ha * 4096 + hb * 256 + hc' * 16 + hd
        if 55296 ≤ w ∧ w ≤ 56319 then
          match parseLowSur rest with
          | some p => (parseStrBody fuel p.2).map
              (fun q => ((65536 + (w - 55296) * 1024 + (p.1 - 56320)) :: q.1, q.2))
          | none => (parseStrBody fuel rest).map (fun q => (w :: q.1, q.2))
        else (parseStrBody fuel rest).map (fun q => (w :: q.1, q.2))
      | _, _, _, _ => none) := rfl
  rw [hstep, hexVal_hexDig (by omega), hexVal_hexDig (by omega),
    hexVal_hexDig (by omega), hexVal_hexDig (by omega)]
  dsimp only
  have hv : v / 4096 % 16 * 4096 + v / 256 % 16 * 256 + v / 16 % 16 * 16 + v % 16 = v := by
    omega
  rw [hv, if_neg hnosur]

lemma parseLowSur_hexDig {lo : Nat} (hlo : 56320 ≤ lo ∧ lo ≤ 57343) (rest : List Nat) :
    parseLowSur
      ([92, 117, hexDig (lo / 4096 % 16), hexDig (lo / 256 % 16),
        hexDig (lo / 16 % 16), hexDig (lo % 16)] ++ rest) = some (lo, rest) := by
  have hstep : parseLowSur
      ([92, 117, hexDig (lo / 4096 % 16), hexDig (lo / 256 % 16),
        hexDig (lo / 16 % 16), hexDig (lo % 16)] ++ rest) =
    (match hexVal (hexDig (lo / 4096 % 16)), hexVal (hexDig (lo / 256 % 16)),
        hexVal (hexDig (lo / 16 % 16)), hexVal (hexDig (lo % 16)) with
      | some ha, some hb, some hc', some hd =>
        let v2 := ha * 4096 + hb * 256 + hc' * 16 + hd
        if 56320 ≤ v2 ∧ v2 ≤ 57343 then some (v2, rest) else none
      | _, _, _, _ => none) := rfl
  rw [hstep, hexVal_hexDig (by omega), hexVal_hexDig (by omega),
    hexVal_hexDig (by omega), hexVal_hexDig (by omega)]
  dsimp only
  have hv : lo / 4096 % 16 * 4096 + lo / 256 % 16 * 256 + lo / 16 % 16 * 16 + lo % 16 = lo := by
    omega
  rw [hv, if_pos hlo]

lemma parseStrBody_surrogate {hi lo : Nat} (hhi : 55296 ≤ hi ∧ hi ≤ 56319)
    (hlo : 56320 ≤ lo ∧ lo ≤ 57343) (rest : List Nat) (fuel : Nat) :
    parseStrBody (fuel + 1)
      ([92, 117, hexDig (hi / 4096 % 16), hexDig (hi / 256 % 16),
        hexDig (hi / 16 % 16), hexDig (hi % 16),
        92, 117, hexDig (lo / 4096 % 16), hexDig (lo / 256 % 16),
        hexDig (lo / 16 % 16), hexDig (lo % 16)] ++ rest) =
      (parseStrBody fuel rest).map
        (fun q => ((65536 + (hi - 55296) * 1024 + (lo - 56320)) :: q.1, q.2)) := by
  have hstep : parseStrBody (fuel + 1)
      ([92, 117, hexDig (hi / 4096 % 16), hexDig (hi / 256 % 16),
        hexDig (hi / 16 % 16), hexDig (hi % 16),
        92, 117, hexDig (lo / 4096 % 16), hexDig (lo / 256 % 16),
        hexDig (lo / 16 % 16), hexDig (lo % 16)] ++ rest) =
    (match hexVal (hexDig (hi / 4096 % 16)), hexVal (hexDig (hi / 256 % 16)),
        hexVal (hexDig (hi / 16 % 16)), hexVal (hexDig (hi % 16)) with
      | some ha, some hb, some hc', some hd =>
        let w := ha * 4096 + hb * 256 + hc' * 16 + hd
        if 55296 ≤ w ∧ w ≤ 56319 then
          match parseLowSur
              ([92, 117, hexDig (lo / 4096 % 16), hexDig (lo / 256 % 16),
                hexDig (lo / 16 % 16), hexDig (lo % 16)] ++ rest) with
          | some p => (parseStrBody fuel p.2).map
              (fun q => ((65536 + (w - 55296) * 1024 + (p.1 - 56320)) :: q.1, q.2))
          | none => (parseStrBody fuel
              ([92, 117, hexDig (lo / 4096 % 16), hexDig (lo / 256 % 16),
                hexDig (lo / 16 % 16), hexDig (lo % 16)] ++ rest)).map
              (fun q => (w :: q.1, q.2))
        else (parseStrBody fuel
            ([92, 117, hexDig (lo / 4096 % 16), hexDig (lo / 256 % 16),
              hexDig (lo / 16 % 16), hexDig (lo % 16)] ++ rest)).map
            (fun q => (w :: q.1, q.2))
      | _, _, _, _ => none) := rfl
  rw [hstep, hexVal_hexDig (by omega), hexVal_hexDig (by omega),
    hexVal_hexDig (by omega), hexVal_hexDig (by omega)]
  dsimp only
  have hv : hi / 4096 % 16 * 4096 + hi / 256 % 16 * 256 + hi / 16 % 16 * 16 + hi % 16 = hi := by
    omega
  rw [hv, if_pos hhi, parseLowSur_hexDig hlo]

lemma parse_escChar {c : Nat} (hc : validCP c) (rest : List Nat) (fuel : Nat) :
    parseStrBody (fuel + 1) (escChar c ++ rest) =
      (parseStrBody fuel rest).map (fun q => (c :: q.1, q.2)) := by
  unfold escChar
  split_ifs with h1 h2 h3 h4 h5 h6 h7 h8 h9
  · subst h1; rfl
  · subst h2; rfl
  · subst h3; rfl
  · subst h4; rfl
  · subst h5; rfl
  · subst h6; rfl
  · subst h7; rfl
  · -- printable non-special character: a one-step scan of the literal char
    rw [parseStrBody.eq_def]
    split
    · omega
    · rename_i heq1 heq2
      rw [List.singleton_append] at heq2
      exact List.noConfusion heq2
    · rename_i n2 rest2 heq1 heq2
      rw [List.singleton_append] at heq2
      injection heq2 with hx hy
      exact absurd hx h1
    · rename_i fuel2 a2 b2 c2 d2 rest2 heq1 heq2
      rw [List.singleton_append] at heq2
      injection heq2 with hx hy
      exact absurd hx h2
    · rename_i fuel2 e2 rest2 himp heq1 heq2
      rw [List.singleton_append] at heq2
      injection heq2 with hx hy
      exact absurd hx h2
    · rename_i fuel2 c2 rest2 himp1 himp2 himp3 heq1 heq2
      rw [List.singleton_append] at heq2
      injection heq2 with hx hy
      subst hx
      subst hy
      obtain rfl : fuel2 = fuel := by omega
      rw [if_neg (by omega)]
  · exact parseStrBody_uescape h9 (by unfold validCP at hc; omega) rest fuel
  · -- astral code point: surrogate-pair escape
    have hval : 57343 < c ∧ c < 1114112 := by
      unfold validCP at hc
      omega
    have h := @parseStrBody_surrogate (55296 + (c - 65536) / 1024)
      (56320 + (c - 65536) % 1024) (by omega) (by omega) rest fuel
    rw [h]
    have hdec : 65536 + (55296 + (c - 65536) / 1024 - 55296) * 1024 +
        (56320 + (c - 65536) % 1024 - 56320) = c := by
      omega
    simp only [hdec]

lemma escChar_length_pos (c : Nat) : 1 ≤ (escChar c).length := by
  unfold escChar
  split_ifs <;> simp

lemma strBody_rt {s : PStr} (hv : validStr s) : ∀ (cont : List Nat) (fuel : Nat),
    (s.flatMap escChar ++ 34 :: cont).length ≤ fuel →
    parseStrBody fuel (s.flatMap escChar ++ 34 :: cont) = some (s, cont) := by
  induction s with
  | nil =>
    intro cont fuel hf
    simp only [List.flatMap_nil, List.nil_append] at hf ⊢
    rcases fuel with _ | f
    · simp at hf
    · rfl
  | cons c s ih =>
    intro cont fuel hf
    have hcv : validCP c := hv c (by simp)
    have hsv : validStr s := fun x hx => hv x (by simp [hx])
    rw [List.flatMap_cons, List.append_assoc]
    rcases fuel with _ | f
    · exfalso
      have h1 := escChar_length_pos c
      simp only [List.length_append, List.length_cons] at hf
      omega
    · have hlen : (s.flatMap escChar ++ 34 :: cont).length ≤ f := by
        have h1 := escChar_length_pos c
        simp only [List.flatMap_cons, List.append_assoc, List.length_append] at hf
        simp only [List.length_append]
        omega
      rw [parse_escChar hcv _ f, ih hsv cont f hlen]
      rfl

lemma dumpStr_shape (s : PStr) (cont : List Nat) :
    dumpStr s ++ cont = 34 :: (s.flatMap escChar ++ 34 :: cont) := by
  unfold dumpStr
  simp

lemma dumpStr_rt {s : PStr} (hv : validStr s) (cont : List Nat) :
    parseJStr (dumpStr s ++ cont) = some (s, cont) := by
  rw [dumpStr_shape]
  exact strBody_rt hv cont ((s.flatMap escChar ++ 34 :: cont).length + 1) (by omega)

lemma items_rt {xs : List PStr} (hv : ∀ s ∈ xs, validStr s) (hne : xs ≠ []) :
    ∀ (cont : List Nat) (fuel : Nat), xs.length ≤ fuel →
    parseItems fuel (joinSep (pstr ", ") (xs.map dumpStr) ++ 93 :: cont) = some (xs, cont) := by
  induction xs with
  | nil => exact absurd rfl hne
  | cons x ys ih =>
    intro cont fuel hf
    rcases fuel with _ | f
    · exfalso
      simp at hf
    rcases ys with _ | ⟨y, zs⟩
    · have hshape : joinSep (pstr ", ") ([x].map dumpStr) ++ 93 :: cont =
          dumpStr x ++ 93 :: cont := rfl
      rw [hshape, parseItems, dumpStr_rt (hv x (by simp)) (93 :: cont)]
      rfl
    · have hsep : pstr ", " = [44, 32] := rfl
      have hshape : joinSep (pstr ", ") ((x :: y :: zs).map dumpStr) ++ 93 :: cont =
          dumpStr x ++ (44 :: 32 ::
            (joinSep (pstr ", ") ((y :: zs).map dumpStr) ++ 93 :: cont)) := by
        simp only [List.map_cons, joinSep, hsep]
        simp [List.append_assoc]
      rw [hshape, parseItems, dumpStr_rt (hv x (by simp)) _]
      rw [Option.some_bind]
      dsimp only
      rw [ih (fun s hs => hv s (by simp [hs])) (by simp) cont f (by simpa using hf)]
      rfl

lemma items_length_le (xs : List PStr) :
    xs.length ≤ (joinSep (pstr ", ") (xs.map dumpStr)).length + 1 := by
  induction xs with
  | nil => simp
  | cons x ys ih =>
    rcases ys with _ | ⟨y, zs⟩
    · simp
    · have hsep : pstr ", " = [44, 32] := rfl
      simp only [List.map_cons, joinSep, hsep, List.length_append, List.length_cons] at ih ⊢
      omega

lemma atom_rt {a : PAtom} (hv : validAtom a) (cont : List Nat) :
    parseAtom (dumpAtom a ++ cont) = some (a, cont) := by
  cases a with
  | vnone => rfl
  | vstr s =>
    have hshape : dumpAtom (.vstr s) ++ cont = 34 :: (s.flatMap escChar ++ 34 :: cont) :=
      dumpStr_shape s cont
    rw [hshape]
    show (parseJStr (34 :: (s.flatMap escChar ++ 34 :: cont))).map
        (fun p => (PAtom.vstr p.1, p.2)) = some (.vstr s, cont)
    rw [← dumpStr_shape, dumpStr_rt hv cont]
    rfl
  | vlist l =>
    rcases l with _ | ⟨x, xs⟩
    · rfl
    · have hstream : dumpAtom (.vlist (x :: xs)) ++ cont =
          91 :: (joinSep (pstr ", ") ((x :: xs).map dumpStr) ++ 93 :: cont) := by
        unfold dumpAtom
        simp
      obtain ⟨T', hT'⟩ : ∃ T', joinSep (pstr ", ") ((x :: xs).map dumpStr) = 34 :: T' := by
        rcases xs with _ | ⟨y, zs⟩
        · exact ⟨x.flatMap escChar ++ [34], by simp [joinSep, dumpStr]⟩
        · refine ⟨x.flatMap escChar ++ [34] ++
            (pstr ", " ++ joinSep (pstr ", ") ((y :: zs).map dumpStr)), ?_⟩
          simp [joinSep, dumpStr, List.append_assoc]
      rw [hstream, hT']
      show (parseItems ((34 :: (T' ++ 93 :: cont)).length + 1)
          (34 :: (T' ++ 93 :: cont))).map (fun p => (PAtom.vlist p.1, p.2)) =
        some (.vlist (x :: xs), cont)
      rw [show (34 : Nat) :: (T' ++ 93 :: cont) =
        joinSep (pstr ", ") ((x :: xs).map dumpStr) ++ 93 :: cont from by rw [hT']; rfl]
      rw [items_rt hv (by simp) cont _ (by
        have hb := items_length_le (x :: xs)
        simp only [List.length_append, List.length_cons] at hb ⊢
        omega)]
      rfl

lemma entries_rt {d : PDict} (hv : validDict d) (hne : d ≠ []) :
    ∀ (cont : List Nat) (fuel : Nat), d.length ≤ fuel →
    parseEntries fuel
      (joinSep (pstr ", ")
        (d.map (fun e => dumpStr e.1 ++ pstr ": " ++ dumpAtom e.2)) ++ 125 :: cont) =
      some (d, cont) := by
  induction d with
  | nil => exact absurd rfl hne
  | cons e es ih =>
    intro cont fuel hf
    rcases fuel with _ | f
    · exfalso
      simp at hf
    have hkv : validStr e.1 ∧ validAtom e.2 := hv e (by simp)
    rcases es with _ | ⟨e2, es2⟩
    · have hshape : joinSep (pstr ", ")
            ([e].map (fun e => dumpStr e.1 ++ pstr ": " ++ dumpAtom e.2)) ++ 125 :: cont =
          dumpStr e.1 ++ (58 :: 32 :: (dumpAtom e.2 ++ 125 :: cont)) := by
        simp only [List.map_cons, List.map_nil, joinSep]
        simp [List.append_assoc]
        rfl
      rw [hshape, parseEntries, dumpStr_rt hkv.1 _, Option.some_bind]
      dsimp only
      rw [atom_rt hkv.2 (125 :: cont), Option.some_bind]
    · have hshape : joinSep (pstr ", ")
            ((e :: e2 :: es2).map (fun e => dumpStr e.1 ++ pstr ": " ++ dumpAtom e.2)) ++
              125 :: cont =
          dumpStr e.1 ++ (58 :: 32 :: (dumpAtom e.2 ++ (44 :: 32 ::
            (joinSep (pstr ", ")
              ((e2 :: es2).map (fun e => dumpStr e.1 ++ pstr ": " ++ dumpAtom e.2)) ++
                125 :: cont)))) := by
        simp only [List.map_cons, joinSep]
        simp [List.append_assoc]
        rfl
      rw [hshape, parseEntries, dumpStr_rt hkv.1 _, Option.some_bind]
      dsimp only
      rw [atom_rt hkv.2 _, Option.some_bind]
      dsimp only
      rw [ih (fun x hx => hv x (by simp [hx])) (by simp) cont f (by simpa using hf)]
      rfl

lemma entries_length_le (d : PDict) :
    d.length ≤ (joinSep (pstr ", ")
      (d.map (fun e => dumpStr e.1 ++ pstr ": " ++ dumpAtom e.2))).length + 1 := by
  induction d with
  | nil => simp
  | cons e es ih =>
    rcases es with _ | ⟨e2, es2⟩
    · simp
    · have hsep : pstr ", " = [44, 32] := rfl
      simp only [List.map_cons, joinSep, hsep, List.length_append, List.length_cons] at ih ⊢
      omega

lemma jsonParse_jsonDumps {d : PDict} (hv : validDict d) :
    jsonParse (jsonDumps d) = some d := by
  rcases d with _ | ⟨e, es⟩
  · rfl
  · have hstream : jsonDumps (e :: es) =
        123 :: (joinSep (pstr ", ")
          ((e :: es).map (fun e => dumpStr e.1 ++ pstr ": " ++ dumpAtom e.2)) ++ 125 :: []) := by
      unfold jsonDumps
      simp
    obtain ⟨T', hT'⟩ : ∃ T', joinSep (pstr ", ")
        ((e :: es).map (fun e => dumpStr e.1 ++ pstr ": " ++ dumpAtom e.2)) = 34 :: T' := by
      rcases es with _ | ⟨e2, es2⟩
      · exact ⟨e.1.flatMap escChar ++ [34] ++ (pstr ": " ++ dumpAtom e.2), by
          simp [joinSep, dumpStr, List.append_assoc]⟩
      · exact ⟨e.1.flatMap escChar ++ [34] ++ (pstr ": " ++ dumpAtom e.2 ++
          (pstr ", " ++ joinSep (pstr ", ")
            ((e2 :: es2).map (fun e => dumpStr e.1 ++ pstr ": " ++ dumpAtom e.2)))), by
          simp [joinSep, dumpStr, List.append_assoc]⟩
    rw [hstream, hT']
    show (parseEntries ((34 :: (T' ++ 125 :: [])).length + 1) (34 :: (T' ++ 125 :: []))).bind
        (fun p => if p.2 = [] then some p.1 else none) = some (e :: es)
    rw [show (34 : Nat) :: (T' ++ 125 :: []) = joinSep (pstr ", ")
        ((e :: es).map (fun e => dumpStr e.1 ++ pstr ": " ++ dumpAtom e.2)) ++ 125 :: []
      from by rw [hT']; rfl]
    rw [entries_rt hv (by simp) [] _ (by
      have hb := entries_length_le (e :: es)
      simp only [List.length_append, List.length_cons] at hb ⊢
      omega)]
    rfl

lemma validStr_append {a b : PStr} (ha : validStr a) (hb : validStr b) :
    validStr (a ++ b) := by
  intro c hc
  rcases List.mem_append.mp hc with h | h
  · exact ha c h
  · exact hb c h

lemma validStr_joinSep {sep : PStr} (hsep : validStr sep) :
    ∀ (l : List PStr), (∀ s ∈ l, validStr s) → validStr (joinSep sep l) := by
  intro l
  induction l with
  | nil =>
    intro _ c hc
    simp [joinSep] at hc
  | cons x ys ih =>
    intro hl
    rcases ys with _ | ⟨y, zs⟩
    · exact hl x (by simp)
    · exact validStr_append (validStr_append (hl x (by simp)) hsep)
        (ih (fun s hs => hl s (by simp [hs])))

lemma final_answer_valid {rs : PAtom} {hp fa ii sm : PStr} {src : PAtom} {at_ : PStr}
    (h1 : validAtom rs) (h2 : validStr hp) (h3 : validStr fa) (h4 : validStr ii)
    (h5 : validStr sm) (h6 : validAtom src) (h7 : validStr at_) :
    validDict (final_answer rs hp fa ii sm src at_) := by
  have hjoin : ∀ (v : PAtom), validAtom v →
      validStr (match v with
        | .vlist l => joinSep [10] (l.map (fun s => pstr "- " ++ s))
        | v => strOfAtom v) := by
    intro v hv
    cases v with
    | vnone => exact (by decide : validStr (pstr "None"))
    | vstr s => exact hv
    | vlist l =>
      exact validStr_joinSep (by decide) _ (fun s hs => by
        obtain ⟨t, ht, rfl⟩ := List.mem_map.mp hs
        exact validStr_append (by decide) (hv t ht))
  intro e he
  simp only [final_answer, List.mem_cons, List.not_mem_nil, or_false] at he
  rcases he with he | he | he | he | he | he | he <;> subst he
  · exact ⟨show validStr (pstr "research_steps") from by decide, hjoin rs h1⟩
  · exact ⟨show validStr (pstr "historical_performance") from by decide, h2⟩
  · exact ⟨show validStr (pstr "financial_analysis") from by decide, h3⟩
  · exact ⟨show validStr (pstr "industry_insights") from by decide, h4⟩
  · exact ⟨show validStr (pstr "summary") from by decide, h5⟩
  · exact ⟨show validStr (pstr "analysis_type") from by decide, h7⟩
  · exact ⟨show validStr (pstr "sources") from by decide, hjoin src h6⟩

/-- C7: the final report produced by the finalize tool, serialized by the
dispatcher with json.dumps, parses back (json.loads) to a dict equal in all
named fields to the pre-serialization report — serialization is a pure
function of the report, hence deterministic — and a consumer whose parse
fails falls back to wrapping the text as an opaque summary rather than
failing. -/
theorem c7_report_roundtrip (research_steps : PAtom)
    (historical_performance financial_analysis industry_insights summary : PStr)
    (sources : PAtom) (analysis_type : PStr)
    (h1 : validAtom research_steps) (h2 : validStr historical_performance)
    (h3 : validStr financial_analysis) (h4 : validStr industry_insights)
    (h5 : validStr summary) (h6 : validAtom sources) (h7 : validStr analysis_type) :
    jsonParse (jsonDumps (final_answer research_steps historical_performance
        financial_analysis industry_insights summary sources analysis_type)) =
      some (final_answer research_steps historical_performance financial_analysis
        industry_insights summary sources analysis_type) ∧
    (∀ (st : AgentState) (last : AgentAction), st.intermediate_steps.getLast? = some last →
      last.tool = finalName → jsonParse last.log = none →
      query_nvidia_documents (.ok st) = .answer (.summaryText last.log)) := by
  constructor
  · exact jsonParse_jsonDumps (final_answer_valid h1 h2 h3 h4 h5 h6 h7)
  · intro st last hlast htool hparse
    simp only [query_nvidia_documents, hlast, htool, beq_self_eq_true, if_true, hparse]

instance validAtom_dec : (a : PAtom) → Decidable (validAtom a)
  | .vnone => .isTrue trivial
  | .vstr s => inferInstanceAs (Decidable (validStr s))
  | .vlist l => inferInstanceAs (Decidable (∀ s ∈ l, validStr s))

/-- Witness for C7 at a concrete report. -/
theorem c7_witness :
    jsonParse (jsonDumps (final_answer (.vlist [pstr "step 1"]) (pstr "hist")
        (pstr "fin") (pstr "ind") (pstr "sum") (.vlist [pstr "Pinecone"])
        (pstr "financial_summary"))) =
      some (final_answer (.vlist [pstr "step 1"]) (pstr "hist") (pstr "fin") (pstr "ind")
        (pstr "sum") (.vlist [pstr "Pinecone"]) (pstr "financial_summary")) ∧
    (∀ (st : AgentState) (last : AgentAction), st.intermediate_steps.getLast? = some last →
      last.tool = finalName → jsonParse last.log = none →
      query_nvidia_documents (.ok st) = .answer (.summaryText last.log)) :=
  c7_report_roundtrip (.vlist [pstr "step 1"]) (pstr "hist") (pstr "fin") (pstr "ind")
    (pstr "sum") (.vlist [pstr "Pinecone"]) (pstr "financial_summary")
    (by decide) (by decide) (by decide) (by decide) (by decide) (by decide) (by decide)
